import Mathlib

/-!
Scripting host of the storage server, `src/lua/init.c`.

A shallow embedding of the path resolver (`tarantool_lua_pushpath_env`,
`tarantool_lua_setpaths`), the module registrar loop of `tarantool_lua_init`,
the script task `run_script_f`, its coordinator `tarantool_lua_run_script`
and the teardown `tarantool_lua_free`, followed by the properties proved
about them.

C strings are lists of characters (a C string holds no NUL, which plays no
role below).  The Lua state is either an explicit stack (path resolver,
registrar) or an abstract state driven through the Lua C API (script task).
-/

namespace Tarantool

/-! ## Path resolver -/

/-- C `strstr(s, p)`: offset of the first occurrence of `p` in `s`, or `none`
(NULL) when `p` does not occur. -/
def strstr : List Char → List Char → Option Nat
  | s, p =>
    if p.isPrefixOf s then some 0
    else match s with
      | [] => none
      | _ :: cs => (strstr cs p).map (· + 1)

/-- An offset returned by `strstr` leaves room for the pattern. -/
theorem strstr_bound (s p : List Char) (w : Nat) (h : strstr s p = some w) :
    w + p.length ≤ s.length := by
  induction s generalizing w with
  | nil =>
    unfold strstr at h
    split at h
    · rename_i hp
      cases p with
      | nil => simp at h; omega
      | cons a t => simp [List.isPrefixOf] at hp
    · simp at h
  | cons c cs ih =>
    unfold strstr at h
    split at h
    · rename_i hp
      have hl := (List.isPrefixOf_iff_prefix.mp hp).length_le
      simp at h; omega
    · simp at h
      obtain ⟨a, ha, rfl⟩ := h
      have := ih a ha
      simp; omega

/-- LuaJIT `luaL_gsub(L, s, p, r)`: the copy of `s` in which every occurrence
of `p`, found left to right by `strstr` and resuming right after the match,
is replaced by `r`:
`while ((wild = strstr(s, p)) != NULL) { add s[0..wild); add r; s = wild + l; } add s`.
Both call sites pass a non-empty pattern; for an empty pattern the C loop
does not terminate and the model returns the subject unchanged. -/
def luaL_gsub (s p r : List Char) : List Char :=
  match h : strstr s p with
  | none => s
  | some wild =>
    if hp : p = [] then s
    else s.take wild ++ r ++ luaL_gsub (s.drop (wild + p.length)) p r
termination_by s.length
decreasing_by
  have h1 := strstr_bound s p wild h
  have h2 : 0 < p.length := List.length_pos.mpr hp
  simp; omega

/-- The delimiter pair `;;` searched for in the override. -/
def LUA_PATH_MARK : List Char := [';', ';']

/-- The auxiliary mark `\1` (one byte of value 1). -/
def AUXMARK : Char := Char.ofNat 1

/-- The replacement `;\1;` of the first substitution. -/
def LUA_PATH_AUX : List Char := [';', AUXMARK, ';']

/-- `lua_remove(L, -2)`: drops the element just below the top of the stack
(the head of the list is the top). -/
def lua_remove_2 {α : Type} : List α → List α
  | a :: _ :: rest => a :: rest
  | st => st

/-- `tarantool_lua_pushpath_env(L, envname)` on a stack of strings whose top
is the computed default.  `getenv` gives the environment (`none` = unset). -/
def tarantool_lua_pushpath_env (getenv : String → Option (List Char))
    (envname : String) (L : List (List Char)) : List (List Char) :=
  match getenv envname with
  | none => L
  | some path =>
    -- const char *def = lua_tostring(L, -1);
    let def_ := L.headD []
    -- path = luaL_gsub(L, path, ";;", ";\1;");   (pushes its result)
    let path1 := luaL_gsub path LUA_PATH_MARK LUA_PATH_AUX
    let L1 := path1 :: L
    -- luaL_gsub(L, path, "\1", def);             (pushes its result)
    let L2 := luaL_gsub path1 [AUXMARK] def_ :: L1
    -- lua_remove(L, -2); lua_remove(L, -2);
    lua_remove_2 (lua_remove_2 L2)

/-- The path left on top of the stack by `tarantool_lua_pushpath_env` when the
computed default `d` is on top and the variable has value `override`. -/
def resolved_path (d : List Char) (override : Option (List Char)) : List Char :=
  (tarantool_lua_pushpath_env (fun _ => override) "LUA_PATH" [d]).headD []

/-- `lua_concat(L, n)`: replaces the top `n` stack slots by their
concatenation, the deepest slot first. -/
def lua_concat (n : Nat) (L : List (List Char)) : List (List Char) :=
  ((L.take n).reverse.foldl (· ++ ·) []) :: L.drop n

/-- `tarantool_lua_setpaths(L)`: the values stored in `package.path` and
`package.cpath`.  The build constants `MODULE_LUAPATH`, `MODULE_LIBPATH` and
`MODULE_LIBSUFFIX` are parameters. -/
def tarantool_lua_setpaths (getenv : String → Option (List Char))
    (MODULE_LUAPATH MODULE_LIBPATH MODULE_LIBSUFFIX : List Char) :
    List Char × List Char :=
  let home := getenv "HOME"
  -- the stack above `package` (slot `top`)
  let L0 : List (List Char) := []
  let L1 := match home with
    | some h =>
      "/.luarocks/share/lua/?/init.lua;".toList :: h ::
      "/.luarocks/share/lua/?.lua;".toList :: h ::
      "/.luarocks/share/lua/5.1/?/init.lua;".toList :: h ::
      "/.luarocks/share/lua/5.1/?.lua;".toList :: h :: L0
    | none => L0
  let L2 := (MODULE_LUAPATH ++ [';']) :: L1
  let L3 := lua_concat L2.length L2
  let L4 := tarantool_lua_pushpath_env getenv "LUA_PATH" L3
  -- lua_setfield(L, top, "path") pops the value
  let path := L4.headD []
  let L5 := L4.tail
  let L6 := match home with
    | some h =>
      ("/.luarocks/lib/lua/?".toList ++ MODULE_LIBSUFFIX ++ [';']) :: h ::
      ("/.luarocks/lib/lua/5.1/?".toList ++ MODULE_LIBSUFFIX ++ [';']) :: h :: L5
    | none => L5
  let L7 := (MODULE_LIBPATH ++ [';']) :: L6
  let L8 := lua_concat L7.length L7
  let L9 := tarantool_lua_pushpath_env getenv "LUA_CPATH" L8
  (path, L9.headD [])

/-- Number of positions of `s` at which `pat` occurs (overlapping occurrences
are counted separately). -/
def occurrences (pat : List Char) : List Char → Nat
  | [] => if pat.isPrefixOf [] then 1 else 0
  | c :: cs => (if pat.isPrefixOf (c :: cs) then 1 else 0) + occurrences pat cs

/-! ## Module registrar -/

/-- The Lua values the registrar loop handles: `nil`, strings, compiled chunks
(with their chunk name and source), the table `registry._LOADED`, and any
other value (an export). -/
inductive LuaValue
  | nil
  | str (s : String)
  | func (modfile : String) (modsrc : String)
  | loaded_table
  | obj (id : Nat)
  deriving DecidableEq, Repr

/-- One turn of the registrar loop as seen from outside: the chunk name and
the source compiled, the sole argument of the call, the value returned, and
whether `lua_setfield` stored it in the cache. -/
structure ModuleCall where
  modfile : String
  modsrc : String
  arg : String
  result : LuaValue
  cached : Bool
  deriving DecidableEq, Repr

/-- What a call record says about the catalog entry it comes from. -/
def ModuleCall.key (c : ModuleCall) : String × String × String := (c.modfile, c.modsrc, c.arg)

/-- One `(kind, value)` pair of `optv`: `-l name` (load a module) or
`-e chunk` (evaluate a chunk).  Other kinds are rejected by `getopt()` in
`main()` before the task is created (`default: unreachable()`). -/
inductive ScriptOption
  | l (name : String)
  | e (chunk : String)
  deriving DecidableEq, Repr

/-- What the script task does that is visible from outside the interpreter,
in the order it does it.  `err` is `none` when the call succeeded and
`some msg` when it failed with the error `msg`; `file` is the path handed to
`luaL_loadfile` (`none` = NULL = standard input). -/
inductive Event
  /-- The call `luaT_call(L, 1, 1)` of `require(name)` -/
  | require (name : String) (err : Option String)
  /-- The binding `lua_setglobal(L, name)` -/
  | setglobal (name : String)
  /-- The call `luaL_loadbuffer(L, chunk, ..)` -/
  | loadbuffer (chunk : String) (err : Option String)
  /-- The call `luaT_call(L, 0, 0)` of the compiled chunk -/
  | call_chunk (chunk : String) (err : Option String)
  /-- The yield `fiber_sleep(0.0)` -/
  | fiber_sleep
  /-- The call `luaL_loadfile(L, file)` -/
  | loadfile (file : Option String) (err : Option String)
  /-- The call `lua_main(L, argc, argv)` of the loaded script -/
  | call_script (file : Option String) (err : Option String)
  /-- The call `lua_main(L, argc, argv)` of `console.start` -/
  | console_start (err : Option String)
  /-- The call `ev_break(loop(), EVBREAK_ALL)` -/
  | ev_break
  deriving DecidableEq, Repr

/-- The error a step failed with, if it failed. -/
def Event.error : Event → Option String
  | .require _ err => err
  | .loadbuffer _ err => err
  | .call_chunk _ err => err
  | .loadfile _ err => err
  | .call_script _ err => err
  | .console_start err => err
  | _ => none

/-- The option whose replay an event starts. -/
def Event.option : Event → Option ScriptOption
  | .require name _ => some (.l name)
  | .loadbuffer chunk _ => some (.e chunk)
  | _ => none

/-- Events of the option replay (`-l`, `-e`). -/
def Event.isOption : Event → Bool
  | .require _ _ => true
  | .setglobal _ => true
  | .loadbuffer _ _ => true
  | .call_chunk _ _ => true
  | _ => false

/-- Events of the run mode: loading or running the target file or standard
input, and the interactive front-end. -/
def Event.isRunMode : Event → Bool
  | .loadfile _ _ => true
  | .call_script _ _ => true
  | .console_start _ => true
  | _ => false

/-- The options whose replay was started, in order. -/
def started (t : List Event) : List ScriptOption := t.filterMap Event.option

/-- The error of the first failed step of a trace. -/
def first_error (t : List Event) : Option String := t.findSome? Event.error

/-- The part of the Lua C API and of the operating system the script task
uses, over an abstract machine state `σ` (the Lua state and the process
environment).  A call that can fail returns `none` on success and
`some msg` on failure: for `luaT_call`, `msg` is the error it stores in the
diagnostics area of the running fiber; for `luaL_loadbuffer` and
`luaL_loadfile`, `msg` is the message left on top of the stack, read by
`lua_tostring(L, -1)`. -/
structure LuaAPI (σ : Type) where
  lua_getglobal : String → σ → σ
  lua_pushstring : String → σ → σ
  lua_setglobal : String → σ → σ
  lua_settop : Int → σ → σ
  lua_gettop : σ → Int
  lua_getfield : Int → String → σ → σ
  lua_remove : Int → σ → σ
  luaT_call : Int → Int → σ → σ × Option String
  luaL_loadbuffer : String → String → σ → σ × Option String
  luaL_loadfile : Option String → σ → σ × Option String
  /-- `access(path, F_OK) == 0` -/
  access : String → σ → Bool
  /-- `isatty(STDIN_FILENO)` -/
  isatty : σ → Bool
  /-- What happens to the machine while the task is suspended in
  `fiber_sleep(0.0)` -/
  fiber_sleep : σ → σ

/-- The pseudo-index `LUA_REGISTRYINDEX`. -/
def LUA_REGISTRYINDEX : Int := -10000

/-- State of a run of `run_script_f`: the Lua state `L`, the local
`interactive`, the diagnostics area of the script fiber (`diag_get()` inside
the task), the external diagnostics area `diag` handed in by the caller, the
global `start_loop`, and the events so far. -/
structure Script (σ : Type) where
  L : σ
  interactive : Bool
  fiber_diag : Option String
  diag : Option String
  start_loop : Bool
  trace : List Event

/-- Outcome of a piece of the task body: control falls through to the next
statement, or the task has run to its `return`. -/
inductive Step (α : Type)
  | next (s : α)
  | done (s : α)

/-- Label `end:` of `run_script_f`: `ev_break(loop(), EVBREAK_ALL); return 0;`. -/
def run_script_f_end {σ : Type} (s : Script σ) : Script σ :=
  { s with trace := s.trace ++ [Event.ev_break] }

/-- Label `error:`: `diag_move(diag_get(), diag); goto end;`.  `diag_move`
clears the destination and moves the source into it. -/
def run_script_f_error {σ : Type} (s : Script σ) : Script σ :=
  run_script_f_end { s with diag := s.fiber_diag, fiber_diag := none }

/-- Label `luajit_error:`: `diag_set(LuajitError, lua_tostring(L, -1));`, then
falls into `error:`. -/
def run_script_f_luajit_error {σ : Type} (msg : String) (s : Script σ) : Script σ :=
  run_script_f_error { s with fiber_diag := some msg }

/-- `lua_main(L, argc, argv)`: pushes `argv[1..]`, calls the function below
them with `luaT_call(L, lua_gettop(L) - 1, 0)`, clears the stack and returns
the status of the call. -/
def lua_main {σ : Type} (api : LuaAPI σ) (argv : List String) (L : σ) :
    σ × Option String :=
  let L1 := (argv.drop 1).foldl (fun st a => api.lua_pushstring a st) L
  let r := api.luaT_call (api.lua_gettop L1 - 1) 0 L1
  (api.lua_settop 0 r.1, r.2)

/-- Body of the option loop of `run_script_f` for one option. -/
def run_option {σ : Type} (api : LuaAPI σ) (o : ScriptOption) (s : Script σ) :
    Step (Script σ) :=
  match o with
  | .l name =>
    let L1 := api.lua_pushstring name (api.lua_getglobal "require" s.L)
    let r := api.luaT_call 1 1 L1
    match r.2 with
    | some msg =>
      -- goto error
      .done (run_script_f_error
        { s with L := r.1, fiber_diag := some msg,
                 trace := s.trace ++ [Event.require name (some msg)] })
    | none =>
      .next { s with L := api.lua_settop 0 (api.lua_setglobal name r.1),
                     trace := s.trace ++ [Event.require name none, Event.setglobal name] }
  | .e chunk =>
    let r := api.luaL_loadbuffer chunk "=(command line)" s.L
    match r.2 with
    | some msg =>
      -- goto luajit_error
      .done (run_script_f_luajit_error msg
        { s with L := r.1, trace := s.trace ++ [Event.loadbuffer chunk (some msg)] })
    | none =>
      let c := api.luaT_call 0 0 r.1
      match c.2 with
      | some msg =>
        -- goto error
        .done (run_script_f_error
          { s with L := c.1, fiber_diag := some msg,
                   trace := s.trace ++
                     [Event.loadbuffer chunk none, Event.call_chunk chunk (some msg)] })
      | none =>
        .next { s with L := api.lua_settop 0 c.1,
                       trace := s.trace ++
                         [Event.loadbuffer chunk none, Event.call_chunk chunk none] }

/-- The option loop `for (int i = 0; i < optc; i += 2)` of `run_script_f`. -/
def run_options {σ : Type} (api : LuaAPI σ) : List ScriptOption → Script σ → Step (Script σ)
  | [], s => .next s
  | o :: os, s =>
    match run_option api o s with
    | .next s1 => run_options api os s1
    | .done s1 => .done s1

/-- The two script branches of `run_script_f` share their body:
`if (luaL_loadfile(L, file) != 0) goto luajit_error;
 if (lua_main(L, argc, argv) != 0) goto error;`. -/
def run_script_f_load {σ : Type} (api : LuaAPI σ) (file : Option String)
    (argv : List String) (s : Script σ) : Step (Script σ) :=
  let r := api.luaL_loadfile file s.L
  match r.2 with
  | some msg =>
    .done (run_script_f_luajit_error msg
      { s with L := r.1, trace := s.trace ++ [Event.loadfile file (some msg)] })
  | none =>
    let c := lua_main api argv r.1
    match c.2 with
    | some msg =>
      .done (run_script_f_error
        { s with L := c.1, fiber_diag := some msg,
                 trace := s.trace ++ [Event.loadfile file none, Event.call_script file (some msg)] })
    | none =>
      .next { s with L := c.1,
                     trace := s.trace ++ [Event.loadfile file none, Event.call_script file none] }

/-- The run-mode `if / else if / else` of `run_script_f`. -/
def run_script_f_mode {σ : Type} (api : LuaAPI σ) (path : Option String)
    (argv : List String) (s : Script σ) : Step (Script σ) :=
  match path with
  | some p =>
    if p ≠ "-" ∧ api.access p s.L = true then
      run_script_f_load api (some p) argv s
    else if api.isatty s.L = false ∨ p = "-" then
      run_script_f_load api none argv s
    else
      .next { s with interactive := true }
  | none =>
    if api.isatty s.L = false then
      run_script_f_load api none argv s
    else
      .next { s with interactive := true }

/-- The block `if (interactive) { .. }` of `run_script_f`, followed by the
label `end:`. -/
def run_script_f_interactive {σ : Type} (api : LuaAPI σ) (argv : List String)
    (s : Script σ) : Script σ :=
  if s.interactive then
    let L1 := api.lua_getfield LUA_REGISTRYINDEX "_LOADED" s.L
    let L2 := api.lua_getfield (-1) "console" L1
    let L3 := api.lua_getfield (-1) "start" L2
    let L4 := api.lua_remove (-2) L3
    let L5 := api.lua_remove (-2) L4
    let c := lua_main api argv L5
    match c.2 with
    | some msg =>
      run_script_f_error
        { s with L := c.1, start_loop := false, fiber_diag := some msg,
                 trace := s.trace ++ [Event.console_start (some msg)] }
    | none =>
      run_script_f_end
        { s with L := c.1, start_loop := false,
                 trace := s.trace ++ [Event.console_start none] }
  else
    run_script_f_end s

/-- The first stretch of `run_script_f`, from its entry to the yield
`fiber_sleep(0.0)`: `next` when the task is suspended in the yield, `done`
when it has run to its `return` without yielding. -/
def run_script_f_start {σ : Type} (api : LuaAPI σ) (optv : List ScriptOption)
    (s : Script σ) : Step (Script σ) :=
  match run_options api optv s with
  | .done s1 => .done s1
  | .next s1 =>
    .next { s1 with L := api.fiber_sleep s1.L, trace := s1.trace ++ [Event.fiber_sleep] }

/-- The rest of `run_script_f`, from the return of `fiber_sleep(0.0)` to the
`return`. -/
def run_script_f_resume {σ : Type} (api : LuaAPI σ) (path : Option String)
    (argv : List String) (s : Script σ) : Script σ :=
  match run_script_f_mode api path argv s with
  | .done s1 => s1
  | .next s1 => run_script_f_interactive api argv s1

/-- The state in which `run_script_f` starts: fresh fiber, no event yet. -/
def Script.init {σ : Type} (L : σ) (interactive : Bool) (diag : Option String)
    (start_loop : Bool) : Script σ :=
  { L := L, interactive := interactive, fiber_diag := none, diag := diag,
    start_loop := start_loop, trace := [] }

/-- `run_script_f(L, path, interactive, optc, optv, argc, argv, diag)` run from
its entry to its `return`, the yield returning as soon as the task is
rescheduled.  Calls into Lua are atomic steps of the model. -/
def run_script_f {σ : Type} (api : LuaAPI σ) (L : σ) (path : Option String)
    (interactive : Bool) (optv : List ScriptOption) (argv : List String)
    (diag : Option String) (start_loop : Bool) : Script σ :=
  match run_script_f_start api optv (Script.init L interactive diag start_loop) with
  | .done s1 => s1
  | .next s1 => run_script_f_resume api path argv s1

/-- The globals of `lua/init.c` and of the calling fiber: the Lua state
`tarantool_L` (`none` = NULL), the in-flight marker `script_fiber`
(`true` = non-NULL), `start_loop`, the diagnostics area of the calling fiber
(`diag_get()` in `tarantool_lua_run_script`), and counters of the calls to
`lua_close` and `tarantool_lua_utf8_free`. -/
structure Host (σ : Type) where
  tarantool_L : Option σ
  script_fiber : Bool
  start_loop : Bool
  diag : Option String
  lua_close_calls : Nat
  utf8_free_calls : Nat

/-- What `tarantool_lua_run_script` leaves behind: the globals, the returned
status and the events of the task. -/
structure RunResult (σ : Type) where
  host : Host σ
  status : Int
  trace : List Event

/-- `diag_is_empty(diag)`. -/
def diag_is_empty (diag : Option String) : Bool := diag.isNone

/-- Modelled from the spec: `fiber_start` (fiber library, not under `src/`)
starts the task, which runs until it first suspends or ends: "Start the
task; it [...] suspend[s] once [...] so the starter can begin driving the
reactor". -/
def fiber_start {σ : Type} (api : LuaAPI σ) (optv : List ScriptOption)
    (s : Script σ) : Step (Script σ) :=
  run_script_f_start api optv s

/-- The state carried by an outcome. -/
def Step.state {α : Type} : Step α → α
  | .next s => s
  | .done s => s

/-- The event loop call `ev_run(loop(), 0)` of libev (not under `src/`), as far
as the script task is concerned, entered after `fiber_start` has returned.
A task suspended in its yield is rescheduled and runs to its `ev_break`,
which makes `ev_run` return: the result is the state the task leaves.  A task
that has already run to its end called `ev_break` before the loop was
entered; libev clears the break state on entry to `ev_run`, so that call has
no effect, no task is left to call it again, and the result is `none`: the
loop is not stopped on account of the task.  This is the case the
specification calls the "race where the task finishes or blocks before the
reactor begins pumping". -/
def ev_run {σ : Type} (api : LuaAPI σ) (path : Option String) (argv : List String) :
    Step (Script σ) → Option (Script σ)
  | .next s => some (run_script_f_resume api path argv s)
  | .done _ => none

/-- How a call of `tarantool_lua_run_script` ends: it returns; or control
stays in `ev_run` (`running`, with the globals and the events at that point);
or the call is made with `tarantool_L` NULL, which the code does not
provide for. -/
inductive Outcome (σ : Type)
  | returned (r : RunResult σ)
  | running (h : Host σ) (trace : List Event)
  | undefined

/-- The end of `tarantool_lua_run_script`, once the task has left the state `s`:
`script_fiber = NULL; return diag_is_empty(diag_get()) ? 0 : -1;`. -/
def tarantool_lua_run_script_return {σ : Type} (h : Host σ) (s : Script σ) : RunResult σ :=
  { host := { h with tarantool_L := some s.L, start_loop := s.start_loop, diag := s.diag,
                     script_fiber := false },
    status := if diag_is_empty s.diag then 0 else -1,
    trace := s.trace }

/-- `tarantool_lua_run_script(path, interactive, optc, optv, argc, argv)`.
`fiber_new` is taken to succeed (its failure is a `panic`). -/
def tarantool_lua_run_script {σ : Type} (api : LuaAPI σ) (path : Option String)
    (interactive : Bool) (optv : List ScriptOption) (argv : List String)
    (h : Host σ) : Outcome σ :=
  match h.tarantool_L with
  | none => .undefined
  | some L =>
    -- script_fiber = fiber_new(title, run_script_f);
    let h1 := { h with script_fiber := true }
    -- fiber_start(script_fiber, tarantool_L, path, interactive, .., diag_get());
    let f := fiber_start api optv (Script.init L interactive h1.diag h1.start_loop)
    -- if (start_loop) ev_run(loop(), 0);
    if f.state.start_loop then
      match ev_run api path argv f with
      | some s => .returned (tarantool_lua_run_script_return h1 s)
      | none =>
        .running { h1 with tarantool_L := some f.state.L, start_loop := f.state.start_loop,
                           diag := f.state.diag } f.state.trace
    else
      .returned (tarantool_lua_run_script_return h1 f.state)

/-- `tarantool_lua_free()`. -/
def tarantool_lua_free {σ : Type} (h : Host σ) : Host σ :=
  -- tarantool_lua_utf8_free();
  let h1 := { h with utf8_free_calls := h.utf8_free_calls + 1 }
  -- if (script_fiber) return;
  if h1.script_fiber then h1
  else
    -- if (tarantool_L) lua_close(tarantool_L);
    let h2 := if h1.tarantool_L.isSome then
        { h1 with lua_close_calls := h1.lua_close_calls + 1 } else h1
    -- tarantool_L = NULL;
    { h2 with tarantool_L := none }

/-- A sequence of teardown calls; each entry is the value of the in-flight
marker `script_fiber` at the time of that call. -/
def teardown_calls {σ : Type} : List Bool → Host σ → Host σ
  | [], h => h
  | m :: ms, h => teardown_calls ms (tarantool_lua_free { h with script_fiber := m })

/-- The sources handed to `luaL_loadfile`, in order (`none` = standard input). -/
def loads (t : List Event) : List (Option String) :=
  t.filterMap fun ev => match ev with
    | .loadfile file _ => some file
    | _ => none

/-- The sources whose loaded script was called, in order. -/
def runs (t : List Event) : List (Option String) :=
  t.filterMap fun ev => match ev with
    | .call_script file _ => some file
    | _ => none

/-- The three run modes of the specification. -/
inductive RunMode
  | file (path : String)
  | stdin
  | interactive
  deriving DecidableEq, Repr

/-- Run-mode resolution as the specification words it, in priority order:
"(a) target is a non-`-` path that exists → execute as a file; (b) standard
input is not an interactive terminal, or target is exactly `-` → execute
bytes read from standard input; (c) otherwise force interactive mode". -/
def spec_run_mode (target : Option String) (target_exists : Bool) (stdin_is_terminal : Bool) :
    RunMode :=
  match target with
  | some p =>
    if p ≠ "-" ∧ target_exists = true then .file p
    else if stdin_is_terminal = false ∨ p = "-" then .stdin
    else .interactive
  | none =>
    if stdin_is_terminal = false then .stdin else .interactive

/-- Whether the target exists, as `access(path, F_OK)` reports it in the
machine state `L` (no target: no file). -/
def target_exists {σ : Type} (api : LuaAPI σ) (path : Option String) (L : σ) : Bool :=
  match path with
  | some p => api.access p L
  | none => false

/-- A small interpreter on which the properties below are instantiated: the
machine state is the Lua stack, top first, each slot shown by a label.
`require("missing")` fails, the chunk `(` does not compile, the chunk
`fail()` and the file `/tmp/s.lua` raise an error when run; `/tmp/s.lua` is
the only existing file and standard input is a terminal. -/
def demo : LuaAPI (List String) where
  lua_getglobal name L := name :: L
  lua_pushstring str L := str :: L
  lua_setglobal _ L := L.tail
  lua_settop n L := L.drop (L.length - n.toNat)
  lua_gettop L := L.length
  lua_getfield _ key L := key :: L
  lua_remove i L := L.eraseIdx (i.natAbs - 1)
  luaT_call nargs _ L :=
    match L.drop nargs.toNat with
    | "require" :: rest =>
      if L.head? = some "missing" then (rest, some "module 'missing' not found")
      else ("module" :: rest, none)
    | "fail()" :: rest => (rest, some "attempt to call global 'fail'")
    | "/tmp/s.lua" :: rest => (rest, some "boom")
    | _ :: rest => (rest, none)
    | [] => ([], none)
  luaL_loadbuffer chunk _ L :=
    if chunk = "(" then ("unexpected symbol" :: L, some "unexpected symbol")
    else (chunk :: L, none)
  luaL_loadfile file L := (file.getD "stdin" :: L, none)
  access path _ := path == "/tmp/s.lua"
  isatty _ := true
  fiber_sleep L := L

/-- The task of the demo after the option `-l a`. -/
def demo_s1 : Script (List String) :=
  { L := [], interactive := false, fiber_diag := none, diag := none, start_loop := true,
    trace := [Event.require "a" none, Event.setglobal "a"] }

/-- An initialised host with no task in flight and an empty diagnostics area. -/
def demo_host : Host (List String) :=
  { tarantool_L := some [], script_fiber := false, start_loop := true, diag := none,
    lua_close_calls := 0, utf8_free_calls := 0 }

/-! ## Properties of the path resolver -/

theorem luaL_gsub_of_none (s p r : List Char) (h : strstr s p = none) :
    luaL_gsub s p r = s := by
  rw [luaL_gsub]
  split
  · rfl
  · rename_i w hw
    rw [h] at hw
    cases hw

theorem luaL_gsub_of_some (s p r : List Char) (w : Nat) (hp : p ≠ [])
    (h : strstr s p = some w) :
    luaL_gsub s p r = s.take w ++ r ++ luaL_gsub (s.drop (w + p.length)) p r := by
  rw [luaL_gsub]
  split
  · rename_i hn
    rw [h] at hn
    cases hn
  · rename_i w2 hw
    rw [h] at hw
    cases hw
    simp [hp]

theorem strstr_of_isPrefixOf (s p : List Char) (h : p.isPrefixOf s = true) :
    strstr s p = some 0 := by
  unfold strstr
  simp [h]

theorem strstr_cons_of_not (c : Char) (cs p : List Char)
    (h : p.isPrefixOf (c :: cs) = false) :
    strstr (c :: cs) p = (strstr cs p).map (· + 1) := by
  rw [strstr]
  simp [h]

/-- Structural unfolding of the substitution at a position where the pattern
does not start. -/
theorem luaL_gsub_cons_of_not (c : Char) (cs p r : List Char)
    (h : p.isPrefixOf (c :: cs) = false) :
    luaL_gsub (c :: cs) p r = c :: luaL_gsub cs p r := by
  have hp : p ≠ [] := by
    rintro rfl
    simp [List.isPrefixOf] at h
  have hs := strstr_cons_of_not c cs p h
  cases hcs : strstr cs p with
  | none =>
    rw [hcs] at hs
    rw [luaL_gsub_of_none _ _ _ hcs, luaL_gsub_of_none _ _ _ (by simpa using hs)]
  | some w =>
    rw [hcs] at hs
    rw [luaL_gsub_of_some _ _ _ (w + 1) hp (by simpa using hs),
      luaL_gsub_of_some _ _ _ w hp hcs]
    have e : w + 1 + p.length = (w + p.length) + 1 := by omega
    rw [e]
    simp

/-- Structural unfolding of the substitution at a position where the pattern
starts. -/
theorem luaL_gsub_of_isPrefixOf (s p r : List Char) (hp : p ≠ [])
    (h : p.isPrefixOf s = true) :
    luaL_gsub s p r = r ++ luaL_gsub (s.drop p.length) p r := by
  rw [luaL_gsub_of_some _ _ _ 0 hp (strstr_of_isPrefixOf s p h)]
  simp

theorem luaL_gsub_nil (p r : List Char) (hp : p ≠ []) : luaL_gsub [] p r = [] := by
  apply luaL_gsub_of_none
  cases p with
  | nil => exact absurd rfl hp
  | cons a t => simp [strstr, List.isPrefixOf]

/-- With a one-byte pattern the substitution acts byte by byte. -/
theorem luaL_gsub_single_cons (x c : Char) (xs r : List Char) :
    luaL_gsub (x :: xs) [c] r = (if x = c then r else [x]) ++ luaL_gsub xs [c] r := by
  by_cases hx : x = c
  · subst hx
    rw [luaL_gsub_of_isPrefixOf _ _ _ (by simp) (by simp [List.isPrefixOf])]
    simp
  · rw [luaL_gsub_cons_of_not _ _ _ _ (by simp [List.isPrefixOf, Ne.symm hx])]
    simp [hx]

theorem luaL_gsub_single_append (c : Char) (x y r : List Char) :
    luaL_gsub (x ++ y) [c] r = luaL_gsub x [c] r ++ luaL_gsub y [c] r := by
  induction x with
  | nil => simp [luaL_gsub_nil]
  | cons a t ih => simp [luaL_gsub_single_cons, ih]

theorem luaL_gsub_single_of_not_mem (c : Char) (x r : List Char) (h : c ∉ x) :
    luaL_gsub x [c] r = x := by
  induction x with
  | nil => simp [luaL_gsub_nil]
  | cons a t ih =>
    simp only [List.mem_cons, not_or] at h
    rw [luaL_gsub_single_cons, ih h.2]
    simp [Ne.symm h.1]

theorem occurrences_eq_zero (p s : List Char) (h : occurrences p s = 0) :
    strstr s p = none := by
  induction s with
  | nil =>
    unfold occurrences at h
    unfold strstr
    split at h
    · cases h
    · rename_i hp
      simp [hp]
  | cons c cs ih =>
    unfold occurrences at h
    have h2 : occurrences p cs = 0 := by omega
    have h1 : p.isPrefixOf (c :: cs) = false := by
      by_contra hc
      simp only [Bool.not_eq_false] at hc
      simp [hc] at h
    rw [strstr_cons_of_not _ _ _ h1, ih h2]
    rfl

theorem occurrences_cons (p : List Char) (c : Char) (cs : List Char) :
    occurrences p (c :: cs)
      = (if p.isPrefixOf (c :: cs) then 1 else 0) + occurrences p cs := rfl

theorem occurrences_suffix_le (p a b : List Char) :
    occurrences p b ≤ occurrences p (a ++ b) := by
  induction a with
  | nil => simp
  | cons c cs ih =>
    rw [List.cons_append, occurrences_cons]
    omega

theorem occurrences_pos_of_isPrefixOf (p s : List Char) (h : p.isPrefixOf s = true) :
    1 ≤ occurrences p s := by
  cases s with
  | nil => simp [occurrences, h]
  | cons c cs =>
    simp only [occurrences, h, if_true]
    omega

theorem isPrefixOf_append_self (p b : List Char) : p.isPrefixOf (p ++ b) = true := by
  induction p with
  | nil => simp [List.isPrefixOf]
  | cons c cs ih => simp [List.isPrefixOf, ih]

/-- When the pattern occurs exactly once in `a ++ p ++ b`, the first match is
the displayed one and nothing matches in `b`. -/
theorem strstr_of_occurrences_one (p a b : List Char) (hp : p ≠ [])
    (h : occurrences p (a ++ p ++ b) = 1) :
    strstr (a ++ p ++ b) p = some a.length ∧ strstr b p = none := by
  induction a with
  | nil =>
    simp only [List.nil_append] at h ⊢
    refine ⟨strstr_of_isPrefixOf _ _ (isPrefixOf_append_self p b), ?_⟩
    apply occurrences_eq_zero
    cases p with
    | nil => exact absurd rfl hp
    | cons c cs =>
      rw [List.cons_append, occurrences_cons] at h
      have hpre := isPrefixOf_append_self (c :: cs) b
      rw [List.cons_append] at hpre
      rw [hpre] at h
      have := occurrences_suffix_le (c :: cs) cs b
      simp only [if_true] at h
      omega
  | cons c cs ih =>
    rw [List.cons_append, List.cons_append, occurrences_cons] at h
    have hge : 1 ≤ occurrences p (cs ++ p ++ b) := by
      have h1 := occurrences_suffix_le p cs (p ++ b)
      have h2 := occurrences_pos_of_isPrefixOf p (p ++ b) (isPrefixOf_append_self p b)
      simp only [List.append_assoc] at h1 ⊢
      omega
    have hno : p.isPrefixOf (c :: (cs ++ p ++ b)) = false := by
      by_contra hc
      simp only [Bool.not_eq_false] at hc
      rw [hc] at h
      simp only [if_true] at h
      omega
    rw [hno] at h
    have hrest : occurrences p (cs ++ p ++ b) = 1 := by simpa using h
    obtain ⟨h1, h2⟩ := ih hrest
    refine ⟨?_, h2⟩
    rw [List.cons_append, List.cons_append, strstr_cons_of_not _ _ _ hno, h1]
    rfl

/-- The first substitution at the first match. -/
theorem luaL_gsub_at_first (p r a b : List Char) (hp : p ≠ [])
    (h : strstr (a ++ p ++ b) p = some a.length) :
    luaL_gsub (a ++ p ++ b) p r = a ++ r ++ luaL_gsub b p r := by
  rw [luaL_gsub_of_some _ _ _ _ hp h]
  have e1 : (a ++ p ++ b).take a.length = a := by
    rw [List.append_assoc]
    exact List.take_left _ _
  have e2 : (a ++ p ++ b).drop (a.length + p.length) = b := by
    have e : a.length + p.length = (a ++ p).length := by simp
    rw [e]
    exact List.drop_left _ _
  rw [e1, e2]

theorem resolved_path_some (d o : List Char) :
    resolved_path d (some o)
      = luaL_gsub (luaL_gsub o LUA_PATH_MARK LUA_PATH_AUX) [AUXMARK] d := by
  simp [resolved_path, tarantool_lua_pushpath_env, lua_remove_2]

theorem resolved_path_none (d : List Char) : resolved_path d none = d := by
  simp [resolved_path, tarantool_lua_pushpath_env]

theorem luaL_gsub_aux (d : List Char) :
    luaL_gsub LUA_PATH_AUX [AUXMARK] d = [';'] ++ d ++ [';'] := by
  have h : (';' : Char) ≠ AUXMARK := by decide
  simp [LUA_PATH_AUX, luaL_gsub_single_cons, luaL_gsub_nil, h]

/-- C7 (as amended): when the override `p ++ ";;" ++ s` contains exactly one
occurrence of `;;` and no byte `\1`, the resolved path is
`p ++ ";" ++ d ++ ";" ++ s`, for every computed default `d`. -/
theorem C7_path_splice (d p s : List Char)
    (hone : occurrences [';', ';'] (p ++ [';', ';'] ++ s) = 1)
    (hp : AUXMARK ∉ p) (hs : AUXMARK ∉ s) :
    resolved_path d (some (p ++ [';', ';'] ++ s)) = p ++ [';'] ++ d ++ [';'] ++ s := by
  obtain ⟨h1, h2⟩ := strstr_of_occurrences_one [';', ';'] p s (by simp) hone
  rw [resolved_path_some]
  show luaL_gsub (luaL_gsub (p ++ [';', ';'] ++ s) [';', ';'] LUA_PATH_AUX) [AUXMARK] d = _
  rw [luaL_gsub_at_first _ _ _ _ (by simp) h1, luaL_gsub_of_none _ _ _ h2,
    luaL_gsub_single_append, luaL_gsub_single_append, luaL_gsub_aux,
    luaL_gsub_single_of_not_mem _ _ _ hp, luaL_gsub_single_of_not_mem _ _ _ hs]
  simp

/-- C7 witness: default `/a/?.lua;` and override `/x/?.lua;;/y/?.lua;` resolve
to `/x/?.lua;/a/?.lua;;/y/?.lua;`. -/
theorem C7_path_splice_witness :
    occurrences [';', ';'] ("/x/?.lua".toList ++ [';', ';'] ++ "/y/?.lua;".toList) = 1
    ∧ AUXMARK ∉ "/x/?.lua".toList ∧ AUXMARK ∉ "/y/?.lua;".toList
    ∧ resolved_path "/a/?.lua;".toList (some "/x/?.lua;;/y/?.lua;".toList)
        = "/x/?.lua;/a/?.lua;;/y/?.lua;".toList :=
  ⟨by decide, by decide, by decide,
   C7_path_splice "/a/?.lua;".toList "/x/?.lua".toList "/y/?.lua;".toList
     (by decide) (by decide) (by decide)⟩

/-- C7 counterexample: the override `\1;;b` contains `;;` exactly once, yet
with default `D` it resolves to `D;D;b`, not to `\1;D;b`: the byte `\1` of
the override is replaced by the default too. -/
theorem C7_counterexample :
    occurrences [';', ';'] ([AUXMARK] ++ [';', ';'] ++ ['b']) = 1
    ∧ resolved_path ['D'] (some ([AUXMARK] ++ [';', ';'] ++ ['b']))
        = ['D', ';', 'D', ';', 'b']
    ∧ resolved_path ['D'] (some ([AUXMARK] ++ [';', ';'] ++ ['b']))
        ≠ [AUXMARK] ++ [';'] ++ ['D'] ++ [';'] ++ ['b'] := by
  have e : resolved_path ['D'] (some ([AUXMARK] ++ [';', ';'] ++ ['b']))
      = ['D', ';', 'D', ';', 'b'] := by
    simp [resolved_path_some, luaL_gsub, strstr, LUA_PATH_MARK, LUA_PATH_AUX, AUXMARK]
  refine ⟨by decide, e, ?_⟩
  rw [e]
  decide

/-- C8 counterexample: with default `D` the override `a;;b;;c`, which holds two
non-overlapping occurrences of `;;`, resolves to `a;D;b;D;c`; the second `;;`
is not left verbatim (`a;D;b;;c`), and no `;;` is left at all. -/
theorem C8_counterexample :
    occurrences [';', ';'] "a;;b;;c".toList = 2
    ∧ resolved_path ['D'] (some "a;;b;;c".toList) = "a;D;b;D;c".toList
    ∧ resolved_path ['D'] (some "a;;b;;c".toList) ≠ "a;D;b;;c".toList
    ∧ occurrences [';', ';'] (resolved_path ['D'] (some "a;;b;;c".toList)) = 0 := by
  have e : resolved_path ['D'] (some "a;;b;;c".toList) = "a;D;b;D;c".toList := by
    simp [resolved_path_some, luaL_gsub, strstr, LUA_PATH_MARK, LUA_PATH_AUX, AUXMARK]
  refine ⟨by decide, e, ?_, ?_⟩
  · rw [e]
    decide
  · rw [e]
    decide

/-- C8 (as amended): every occurrence of `;;` met by the left-to-right scan is
substituted by `;<default>;`.  If the first `;;` of the override
`p ++ ";;" ++ rest` is the displayed one and `p` holds no byte `\1`, the
resolved path is `p ++ ";" ++ d ++ ";"` followed by the resolution of `rest`
under the same rule. -/
theorem C8_every_occurrence (d p rest : List Char)
    (hfirst : strstr (p ++ [';', ';'] ++ rest) [';', ';'] = some p.length)
    (hp : AUXMARK ∉ p) :
    resolved_path d (some (p ++ [';', ';'] ++ rest))
      = p ++ [';'] ++ d ++ [';'] ++ resolved_path d (some rest) := by
  rw [resolved_path_some, resolved_path_some]
  show luaL_gsub (luaL_gsub (p ++ [';', ';'] ++ rest) [';', ';'] LUA_PATH_AUX) [AUXMARK] d
    = p ++ [';'] ++ d ++ [';'] ++ luaL_gsub (luaL_gsub rest [';', ';'] LUA_PATH_AUX) [AUXMARK] d
  rw [luaL_gsub_at_first _ _ _ _ (by simp) hfirst, luaL_gsub_single_append,
    luaL_gsub_single_append, luaL_gsub_aux, luaL_gsub_single_of_not_mem _ _ _ hp]
  simp

/-- C8 witness: override `a;;b;;c`, whose first `;;` follows `a`. -/
theorem C8_every_occurrence_witness :
    strstr (['a'] ++ [';', ';'] ++ "b;;c".toList) [';', ';'] = some ['a'].length
    ∧ AUXMARK ∉ ['a']
    ∧ resolved_path ['D'] (some (['a'] ++ [';', ';'] ++ "b;;c".toList))
        = ['a'] ++ [';'] ++ ['D'] ++ [';'] ++ resolved_path ['D'] (some "b;;c".toList) :=
  ⟨by decide, by decide, C8_every_occurrence ['D'] ['a'] "b;;c".toList (by decide) (by decide)⟩

/-- C9 counterexample: the override consisting of the single byte `\1` holds
no `;;`, yet with default `D` it resolves to `D`, not to itself. -/
theorem C9_counterexample :
    occurrences [';', ';'] [AUXMARK] = 0
    ∧ resolved_path ['D'] (some [AUXMARK]) = ['D']
    ∧ resolved_path ['D'] (some [AUXMARK]) ≠ [AUXMARK] := by
  have e : resolved_path ['D'] (some [AUXMARK]) = ['D'] := by
    simp [resolved_path_some, luaL_gsub, strstr, LUA_PATH_MARK, LUA_PATH_AUX, AUXMARK]
  refine ⟨by decide, e, ?_⟩
  rw [e]
  decide

/-- C9 (as amended): with the variable unset the resolved path is the computed
default `d`; with the variable set to a value `v` that holds neither `;;` nor
the byte `\1`, the resolved path is `v` itself, whatever the default. -/
theorem C9_override_verbatim (d v : List Char) :
    resolved_path d none = d
    ∧ (occurrences [';', ';'] v = 0 → AUXMARK ∉ v → resolved_path d (some v) = v) := by
  refine ⟨resolved_path_none d, fun h0 hv => ?_⟩
  rw [resolved_path_some]
  show luaL_gsub (luaL_gsub v [';', ';'] LUA_PATH_AUX) [AUXMARK] d = v
  rw [luaL_gsub_of_none _ _ _ (occurrences_eq_zero _ _ h0),
    luaL_gsub_single_of_not_mem _ _ _ hv]

/-- C9 witness: override `/x/?.lua;` against default `/a/?.lua;`. -/
theorem C9_override_verbatim_witness :
    occurrences [';', ';'] "/x/?.lua;".toList = 0 ∧ AUXMARK ∉ "/x/?.lua;".toList
    ∧ resolved_path "/a/?.lua;".toList (some "/x/?.lua;".toList) = "/x/?.lua;".toList :=
  ⟨by decide, by decide,
   (C9_override_verbatim "/a/?.lua;".toList "/x/?.lua;".toList).2 (by decide) (by decide)⟩

/-- `package.path` as set by `tarantool_lua_setpaths` when `HOME` is unset: the
resolution of `MODULE_LUAPATH;` against the variable `LUA_PATH`. -/
theorem tarantool_lua_setpaths_path (getenv : String → Option (List Char))
    (A B C : List Char) (hhome : getenv "HOME" = none) :
    (tarantool_lua_setpaths getenv A B C).1 = resolved_path (A ++ [';']) (getenv "LUA_PATH") := by
  cases h : getenv "LUA_PATH" <;>
    simp [tarantool_lua_setpaths, hhome, h, lua_concat, resolved_path,
      tarantool_lua_pushpath_env, lua_remove_2]

/-! ## Properties of the script task -/

theorem first_error_append (a b : List Event) :
    first_error (a ++ b) = (first_error a).or (first_error b) := by
  simp [first_error, List.findSome?_append]

theorem started_append (a b : List Event) : started (a ++ b) = started a ++ started b := by
  simp [started, List.filterMap_append]

/-- An option that is replayed without failure: its events, and what it leaves
untouched. -/
theorem run_option_next {σ : Type} (api : LuaAPI σ) (o : ScriptOption) (s s1 : Script σ)
    (h : run_option api o s = .next s1) :
    ∃ t, s1.trace = s.trace ++ t ∧ started t = [o] ∧ first_error t = none
      ∧ (∀ ev ∈ t, ev.isOption = true)
      ∧ s1.diag = s.diag ∧ s1.interactive = s.interactive ∧ s1.start_loop = s.start_loop := by
  cases o with
  | l name =>
    simp only [run_option] at h
    split at h
    · cases h
    · injection h with h
      subst h
      exact ⟨[Event.require name none, Event.setglobal name], rfl, rfl, rfl,
        by simp [Event.isOption], rfl, rfl, rfl⟩
  | e chunk =>
    simp only [run_option] at h
    split at h
    · cases h
    · split at h
      · cases h
      · injection h with h
        subst h
        exact ⟨[Event.loadbuffer chunk none, Event.call_chunk chunk none], rfl, rfl, rfl,
          by simp [Event.isOption], rfl, rfl, rfl⟩

/-- An option whose replay fails: its events end the task, and the error is in
the external diagnostics area. -/
theorem run_option_done {σ : Type} (api : LuaAPI σ) (o : ScriptOption) (s s1 : Script σ)
    (h : run_option api o s = .done s1) :
    ∃ t e, s1.trace = s.trace ++ t ++ [Event.ev_break] ∧ started t = [o]
      ∧ first_error t = some e ∧ (∀ ev ∈ t, ev.isOption = true) ∧ s1.diag = some e := by
  cases o with
  | l name =>
    simp only [run_option] at h
    split at h
    · rename_i msg hm
      injection h with h
      subst h
      exact ⟨[Event.require name (some msg)], msg, rfl, rfl, rfl,
        by simp [Event.isOption], rfl⟩
    · cases h
  | e chunk =>
    simp only [run_option] at h
    split at h
    · rename_i msg hm
      injection h with h
      subst h
      exact ⟨[Event.loadbuffer chunk (some msg)], msg, rfl, rfl, rfl,
        by simp [Event.isOption], rfl⟩
    · split at h
      · rename_i msg hm
        injection h with h
        subst h
        exact ⟨[Event.loadbuffer chunk none, Event.call_chunk chunk (some msg)], msg,
          by simp [run_script_f_error, run_script_f_end], rfl, rfl,
          by simp [Event.isOption], rfl⟩
      · cases h

theorem run_options_next {σ : Type} (api : LuaAPI σ) (os : List ScriptOption)
    (s s1 : Script σ) (h : run_options api os s = .next s1) :
    ∃ t, s1.trace = s.trace ++ t ∧ started t = os ∧ first_error t = none
      ∧ (∀ ev ∈ t, ev.isOption = true)
      ∧ s1.diag = s.diag ∧ s1.interactive = s.interactive ∧ s1.start_loop = s.start_loop := by
  induction os generalizing s with
  | nil =>
    simp only [run_options] at h
    injection h with h
    subst h
    exact ⟨[], by simp, rfl, rfl, by simp, rfl, rfl, rfl⟩
  | cons o os ih =>
    simp only [run_options] at h
    split at h
    · rename_i s2 h2
      obtain ⟨t1, a1, a2, a3, a4, a5, a6, a7⟩ := run_option_next api o s s2 h2
      obtain ⟨t2, b1, b2, b3, b4, b5, b6, b7⟩ := ih s2 h
      refine ⟨t1 ++ t2, ?_, ?_, ?_, ?_, ?_, ?_, ?_⟩
      · rw [b1, a1, List.append_assoc]
      · rw [started_append, a2, b2]; rfl
      · rw [first_error_append, a3, b3]; rfl
      · intro ev hev
        rcases List.mem_append.mp hev with hev | hev
        · exact a4 ev hev
        · exact b4 ev hev
      · rw [b5, a5]
      · rw [b6, a6]
      · rw [b7, a7]
    · cases h

/-- Conversely, a loop that ends the task did so at its first failing option. -/
theorem run_options_done {σ : Type} (api : LuaAPI σ) (os : List ScriptOption)
    (s s2 : Script σ) (h : run_options api os s = .done s2) :
    ∃ pre o post s1, os = pre ++ o :: post ∧ run_options api pre s = .next s1
      ∧ run_option api o s1 = .done s2 := by
  induction os generalizing s with
  | nil => simp [run_options] at h
  | cons o os ih =>
    simp only [run_options] at h
    split at h
    · rename_i s3 h3
      obtain ⟨pre, o2, post, s1, e1, e2, e3⟩ := ih s3 h
      refine ⟨o :: pre, o2, post, s1, by rw [e1]; rfl, ?_, e3⟩
      simp [run_options, h3, e2]
    · rename_i s3 h3
      injection h with h
      subst h
      exact ⟨[], o, os, s, rfl, rfl, h3⟩

theorem run_script_f_load_next {σ : Type} (api : LuaAPI σ) (file : Option String)
    (argv : List String) (s s1 : Script σ) (h : run_script_f_load api file argv s = .next s1) :
    s1.trace = s.trace ++ [Event.loadfile file none, Event.call_script file none]
      ∧ s1.diag = s.diag ∧ s1.interactive = s.interactive := by
  simp only [run_script_f_load] at h
  split at h
  · cases h
  · split at h
    · cases h
    · injection h with h
      subst h
      exact ⟨rfl, rfl, rfl⟩

theorem run_script_f_load_done {σ : Type} (api : LuaAPI σ) (file : Option String)
    (argv : List String) (s s1 : Script σ) (h : run_script_f_load api file argv s = .done s1) :
    ∃ t e, s1.trace = s.trace ++ t ++ [Event.ev_break]
      ∧ (t = [Event.loadfile file (some e)]
          ∨ t = [Event.loadfile file none, Event.call_script file (some e)])
      ∧ s1.diag = some e ∧ s1.interactive = s.interactive := by
  simp only [run_script_f_load] at h
  split at h
  · rename_i msg hm
    injection h with h
    subst h
    exact ⟨[Event.loadfile file (some msg)], msg, rfl, Or.inl rfl, rfl, rfl⟩
  · split at h
    · rename_i msg hm
      injection h with h
      subst h
      exact ⟨[Event.loadfile file none, Event.call_script file (some msg)], msg,
        by simp [run_script_f_error, run_script_f_end], Or.inr rfl, rfl, rfl⟩
    · cases h

theorem run_script_f_interactive_spec {σ : Type} (api : LuaAPI σ) (argv : List String)
    (s : Script σ) :
    ∃ t, (run_script_f_interactive api argv s).trace = s.trace ++ t ++ [Event.ev_break]
      ∧ (run_script_f_interactive api argv s).interactive = s.interactive
      ∧ ((s.interactive = false ∧ t = [] ∧ (run_script_f_interactive api argv s).diag = s.diag)
         ∨ (s.interactive = true ∧ t = [Event.console_start none]
              ∧ (run_script_f_interactive api argv s).diag = s.diag)
         ∨ (∃ e, s.interactive = true ∧ t = [Event.console_start (some e)]
              ∧ (run_script_f_interactive api argv s).diag = some e)) := by
  unfold run_script_f_interactive
  split
  · rename_i hi
    simp only []
    split
    · rename_i msg hm
      exact ⟨[Event.console_start (some msg)], rfl, rfl, Or.inr (Or.inr ⟨msg, hi, rfl, rfl⟩)⟩
    · exact ⟨[Event.console_start none], rfl, rfl, Or.inr (Or.inl ⟨hi, rfl, rfl⟩)⟩
  · rename_i hi
    exact ⟨[], by simp [run_script_f_end], rfl, Or.inl ⟨by simpa using hi, rfl, rfl⟩⟩

/-- The run-mode `if / else if / else` of the code takes the branch the
specification names. -/
theorem run_script_f_mode_eq {σ : Type} (api : LuaAPI σ) (path : Option String)
    (argv : List String) (s : Script σ) :
    run_script_f_mode api path argv s =
      match spec_run_mode path (target_exists api path s.L) (api.isatty s.L) with
      | .file p => run_script_f_load api (some p) argv s
      | .stdin => run_script_f_load api none argv s
      | .interactive => .next { s with interactive := true } := by
  cases path with
  | none =>
    simp only [run_script_f_mode, spec_run_mode]
    split <;> rfl
  | some p =>
    simp only [run_script_f_mode, spec_run_mode, target_exists]
    split
    · rfl
    · split <;> rfl

/-- A script branch, then the interactive block: the events and the
diagnostics. -/
theorem run_script_f_load_then {σ : Type} (api : LuaAPI σ) (file : Option String)
    (argv : List String) (s r : Script σ)
    (hr : r = match run_script_f_load api file argv s with
      | .done s1 => s1
      | .next s1 => run_script_f_interactive api argv s1) :
    ∃ t, r.trace = s.trace ++ t ++ [Event.ev_break]
      ∧ loads t = [file] ∧ (∀ f ∈ runs t, f = file)
      ∧ (∀ ev ∈ t, ev.isRunMode = true)
      ∧ r.interactive = s.interactive
      ∧ r.diag = (first_error t).or s.diag := by
  cases hl : run_script_f_load api file argv s with
  | done s1 =>
    rw [hl] at hr
    simp only [] at hr
    subst hr
    obtain ⟨t, e, h1, h2, h3, h4⟩ := run_script_f_load_done api file argv s r hl
    refine ⟨t, h1, ?_, ?_, ?_, h4, ?_⟩ <;>
      rcases h2 with h2 | h2 <;> subst h2 <;>
      simp [loads, runs, Event.isRunMode, first_error, Event.error, h3]
  | next s1 =>
    rw [hl] at hr
    simp only [] at hr
    subst hr
    obtain ⟨h1, h2, h3⟩ := run_script_f_load_next api file argv s s1 hl
    obtain ⟨t, k1, k2, k3⟩ := run_script_f_interactive_spec api argv s1
    refine ⟨[Event.loadfile file none, Event.call_script file none] ++ t,
      by rw [k1, h1]; simp, ?_, ?_, ?_, by rw [k2, h3], ?_⟩ <;>
      rcases k3 with ⟨_, k4, k5⟩ | ⟨_, k4, k5⟩ | ⟨e, _, k4, k5⟩ <;> subst k4 <;>
      simp [loads, runs, Event.isRunMode, first_error, Event.error, k5, h2]

/-- The forced interactive mode: the events and the diagnostics. -/
theorem run_script_f_forced_interactive {σ : Type} (api : LuaAPI σ) (argv : List String)
    (s r : Script σ)
    (hr : r = run_script_f_interactive api argv { s with interactive := true }) :
    ∃ eo, r.trace = s.trace ++ [Event.console_start eo] ++ [Event.ev_break]
      ∧ r.interactive = true
      ∧ r.diag = eo.or s.diag := by
  subst hr
  obtain ⟨t, k1, k2, k3⟩ := run_script_f_interactive_spec api argv { s with interactive := true }
  rcases k3 with ⟨k0, _, _⟩ | ⟨_, k4, k5⟩ | ⟨e, _, k4, k5⟩
  · simp at k0
  · subst k4
    exact ⟨none, k1, by rw [k2], by rw [k5]; rfl⟩
  · subst k4
    exact ⟨some e, k1, by rw [k2], by rw [k5]; rfl⟩

/-- The task from the return of the yield to its end: the events it adds, the
diagnostics it leaves, and the run mode they show. -/
theorem run_script_f_resume_spec {σ : Type} (api : LuaAPI σ) (path : Option String)
    (argv : List String) (s r : Script σ) (hr : r = run_script_f_resume api path argv s) :
    ∃ t, r.trace = s.trace ++ t ++ [Event.ev_break]
      ∧ (∀ ev ∈ t, ev.isRunMode = true)
      ∧ r.diag = (first_error t).or s.diag
      ∧ (match spec_run_mode path (target_exists api path s.L) (api.isatty s.L) with
         | .file p => loads t = [some p] ∧ (∀ f ∈ runs t, f = some p)
             ∧ r.interactive = s.interactive
         | .stdin => loads t = [none] ∧ (∀ f ∈ runs t, f = none)
             ∧ r.interactive = s.interactive
         | .interactive => loads t = [] ∧ runs t = [] ∧ r.interactive = true
             ∧ ∃ eo, t = [Event.console_start eo]) := by
  unfold run_script_f_resume at hr
  rw [run_script_f_mode_eq] at hr
  cases hm : spec_run_mode path (target_exists api path s.L) (api.isatty s.L) with
  | file p =>
    rw [hm] at hr
    obtain ⟨t, h1, h2, h3, h4, h5, h6⟩ := run_script_f_load_then api (some p) argv s r hr
    exact ⟨t, h1, h4, h6, h2, h3, h5⟩
  | stdin =>
    rw [hm] at hr
    obtain ⟨t, h1, h2, h3, h4, h5, h6⟩ := run_script_f_load_then api none argv s r hr
    exact ⟨t, h1, h4, h6, h2, h3, h5⟩
  | interactive =>
    rw [hm] at hr
    obtain ⟨eo, h1, h2, h3⟩ := run_script_f_forced_interactive api argv s r hr
    refine ⟨[Event.console_start eo], h1, by simp [Event.isRunMode], ?_, rfl, rfl, h2, eo, rfl⟩
    rw [h3]
    cases eo <;> rfl

theorem run_script_f_of_next {σ : Type} (api : LuaAPI σ) (L : σ) (path : Option String)
    (interactive : Bool) (optv : List ScriptOption) (argv : List String)
    (diag : Option String) (start_loop : Bool) (s1 : Script σ)
    (hopts : run_options api optv (Script.init L interactive diag start_loop) = .next s1) :
    run_script_f api L path interactive optv argv diag start_loop
      = run_script_f_resume api path argv
          { s1 with L := api.fiber_sleep s1.L, trace := s1.trace ++ [Event.fiber_sleep] } := by
  simp [run_script_f, run_script_f_start, hopts]

theorem run_script_f_of_done {σ : Type} (api : LuaAPI σ) (L : σ) (path : Option String)
    (interactive : Bool) (optv : List ScriptOption) (argv : List String)
    (diag : Option String) (start_loop : Bool) (s2 : Script σ)
    (hopts : run_options api optv (Script.init L interactive diag start_loop) = .done s2) :
    run_script_f api L path interactive optv argv diag start_loop = s2 := by
  simp [run_script_f, run_script_f_start, hopts]

theorem first_error_eq_none_iff (t : List Event) :
    first_error t = none ↔ ∀ ev ∈ t, ev.error = none := by
  simp [first_error]

/-- The whole task when every option is replayed without failure: the option
events, the yield, the run-mode events, the stop signal. -/
theorem run_script_f_trace {σ : Type} (api : LuaAPI σ) (L : σ) (path : Option String)
    (interactive : Bool) (optv : List ScriptOption) (argv : List String)
    (diag : Option String) (start_loop : Bool) (s1 r : Script σ)
    (hopts : run_options api optv (Script.init L interactive diag start_loop) = .next s1)
    (hr : r = run_script_f api L path interactive optv argv diag start_loop) :
    ∃ t1 t2, r.trace = t1 ++ [Event.fiber_sleep] ++ t2 ++ [Event.ev_break]
      ∧ s1.trace = t1 ∧ started t1 = optv ∧ first_error t1 = none
      ∧ (∀ ev ∈ t1, ev.isOption = true)
      ∧ (∀ ev ∈ t2, ev.isRunMode = true)
      ∧ r.diag = (first_error t2).or diag
      ∧ (match spec_run_mode path (target_exists api path (api.fiber_sleep s1.L))
            (api.isatty (api.fiber_sleep s1.L)) with
         | .file p => loads t2 = [some p] ∧ (∀ f ∈ runs t2, f = some p)
             ∧ r.interactive = interactive
         | .stdin => loads t2 = [none] ∧ (∀ f ∈ runs t2, f = none)
             ∧ r.interactive = interactive
         | .interactive => loads t2 = [] ∧ runs t2 = [] ∧ r.interactive = true
             ∧ ∃ eo, t2 = [Event.console_start eo]) := by
  rw [run_script_f_of_next api L path interactive optv argv diag start_loop s1 hopts] at hr
  obtain ⟨t1, a1, a2, a3, a4, a5, a6, _⟩ := run_options_next api optv _ s1 hopts
  obtain ⟨t2, b1, b2, b3, b4⟩ := run_script_f_resume_spec api path argv _ r hr
  simp only [Script.init, List.nil_append] at a1 a5 a6
  refine ⟨t1, t2, ?_, a1, a2, a3, a4, b2, ?_, ?_⟩
  · rw [b1, a1]
  · rw [b3, a5]
  · simp only [a6] at b4
    exact b4

/-- The status `lua_main` returns is that of its call
`luaT_call(L, lua_gettop(L) - 1, 0)` on the stack extended by `argv[1..]`. -/
theorem lua_main_status {σ : Type} (api : LuaAPI σ) (argv : List String) (st : σ) :
    (lua_main api argv st).2
      = (api.luaT_call
          (api.lua_gettop ((argv.drop 1).foldl (fun x a => api.lua_pushstring a x) st) - 1) 0
          ((argv.drop 1).foldl (fun x a => api.lua_pushstring a x) st)).2 := rfl

/-- C5 counterexample: with the option `-l a` the first action of the task is
the call of `require("a")`; the yield comes after the option. -/
theorem C5_counterexample :
    (run_script_f demo [] none false [.l "a"] [] none true).trace
      = [Event.require "a" none, Event.setglobal "a", Event.fiber_sleep,
         Event.console_start none, Event.ev_break]
    ∧ (run_script_f demo [] none false [.l "a"] [] none true).trace.head?
      ≠ some Event.fiber_sleep := by
  decide

/-- C5 (as amended): in every run of the task in which all options are replayed
without failure, the task yields exactly once, after the replay of every
option and before any run-mode step: the events are the option events `t1`
(the options in input order), the yield, the run-mode events `t2` and the stop
signal.  With an empty option list the yield is the first action. -/
theorem C5_yield_after_options {σ : Type} (api : LuaAPI σ) (L : σ) (path : Option String)
    (interactive : Bool) (optv : List ScriptOption) (argv : List String)
    (diag : Option String) (start_loop : Bool) (s1 r : Script σ)
    (hopts : run_options api optv (Script.init L interactive diag start_loop) = .next s1)
    (hr : r = run_script_f api L path interactive optv argv diag start_loop) :
    ∃ t1 t2, r.trace = t1 ++ [Event.fiber_sleep] ++ t2 ++ [Event.ev_break]
      ∧ started t1 = optv
      ∧ (∀ ev ∈ t1, ev.isOption = true)
      ∧ (∀ ev ∈ t2, ev.isRunMode = true)
      ∧ (optv = [] → r.trace.head? = some Event.fiber_sleep) := by
  obtain ⟨t1, t2, h1, h2, h3, _, h5, h6, _, _⟩ :=
    run_script_f_trace api L path interactive optv argv diag start_loop s1 r hopts hr
  refine ⟨t1, t2, h1, h3, h5, h6, ?_⟩
  intro he
  subst he
  simp only [run_options] at hopts
  injection hopts with hopts
  subst hopts
  simp only [Script.init] at h2
  rw [h1, ← h2]
  rfl

/-- C5 witness: the option `-l a`, no target. -/
theorem C5_yield_after_options_witness :
    run_options demo [.l "a"] (Script.init [] false none true) = .next demo_s1
    ∧ ∃ t1 t2, (run_script_f demo [] none false [.l "a"] [] none true).trace
          = t1 ++ [Event.fiber_sleep] ++ t2 ++ [Event.ev_break]
      ∧ started t1 = [.l "a"]
      ∧ (∀ ev ∈ t1, ev.isOption = true)
      ∧ (∀ ev ∈ t2, ev.isRunMode = true)
      ∧ ([ScriptOption.l "a"] = [] →
          (run_script_f demo [] none false [.l "a"] [] none true).trace.head?
            = some Event.fiber_sleep) :=
  ⟨rfl, C5_yield_after_options demo [] none false [.l "a"] [] none true demo_s1 _ rfl rfl⟩

/-! ## Properties of the coordinator and of the teardown -/

/-- Whatever the run, the external diagnostics area ends holding the error of
the first failed step, or what it held at the start when no step failed. -/
theorem run_script_f_diag {σ : Type} (api : LuaAPI σ) (L : σ) (path : Option String)
    (interactive : Bool) (optv : List ScriptOption) (argv : List String)
    (diag : Option String) (start_loop : Bool) :
    (run_script_f api L path interactive optv argv diag start_loop).diag
      = (first_error (run_script_f api L path interactive optv argv diag start_loop).trace).or
          diag := by
  cases hopts : run_options api optv (Script.init L interactive diag start_loop) with
  | next s1 =>
    obtain ⟨t1, t2, h1, _, _, h4, _, _, h7, _⟩ :=
      run_script_f_trace api L path interactive optv argv diag start_loop s1 _ hopts rfl
    rw [h7, h1]
    simp only [first_error_append, h4]
    cases first_error t2 <;> rfl
  | done s2 =>
    obtain ⟨pre, o, post, s1, e1, e2, e3⟩ := run_options_done api optv _ s2 hopts
    obtain ⟨t1, a1, _, a3, _, _, _, _⟩ := run_options_next api pre _ s1 e2
    obtain ⟨t2, e, b1, _, b3, _, b5⟩ := run_option_done api o s1 s2 e3
    rw [run_script_f_of_done api L path interactive optv argv diag start_loop s2 hopts,
      b5, b1, a1]
    simp only [first_error_append, a3, b3]
    rfl

theorem tarantool_lua_run_script_return_status {σ : Type} (h : Host σ) (s : Script σ) :
    (tarantool_lua_run_script_return h s).status
      = (if (tarantool_lua_run_script_return h s).host.diag = none then 0 else -1) := by
  cases hd : s.diag <;> simp [tarantool_lua_run_script_return, diag_is_empty, hd]

/-- The coordinator when every option is replayed without failure: it
returns, and what it returns. -/
theorem tarantool_lua_run_script_of_next {σ : Type} (api : LuaAPI σ) (path : Option String)
    (interactive : Bool) (optv : List ScriptOption) (argv : List String)
    (h : Host σ) (L : σ) (s1 : Script σ) (hL : h.tarantool_L = some L)
    (hopts : run_options api optv (Script.init L interactive h.diag h.start_loop) = .next s1) :
    ∃ r, tarantool_lua_run_script api path interactive optv argv h = .returned r
      ∧ r.status = (if r.host.diag = none then 0 else -1)
      ∧ r.host.diag = (first_error r.trace).or h.diag
      ∧ (h.start_loop = true →
          r.trace = (run_script_f api L path interactive optv argv h.diag h.start_loop).trace)
      ∧ r.host.script_fiber = false
      ∧ r.host.tarantool_L ≠ none
      ∧ r.host.lua_close_calls = h.lua_close_calls := by
  obtain ⟨t1, a1, _, a3, _, a5, _, a7⟩ := run_options_next api optv _ s1 hopts
  simp only [Script.init, List.nil_append] at a1 a5 a7
  have hf : fiber_start api optv (Script.init L interactive h.diag h.start_loop)
      = .next { s1 with L := api.fiber_sleep s1.L,
                        trace := s1.trace ++ [Event.fiber_sleep] } := by
    simp [fiber_start, run_script_f_start, hopts]
  by_cases hsl : h.start_loop = true
  · have hs1 : s1.start_loop = true := by rw [a7]; exact hsl
    have hrun : tarantool_lua_run_script api path interactive optv argv h
        = .returned (tarantool_lua_run_script_return { h with script_fiber := true }
            (run_script_f api L path interactive optv argv h.diag h.start_loop)) := by
      rw [run_script_f_of_next api L path interactive optv argv h.diag h.start_loop s1 hopts]
      simp only [tarantool_lua_run_script, hL, hf, Step.state, hs1, if_true, ev_run]
    refine ⟨_, hrun, tarantool_lua_run_script_return_status _ _, ?_, fun _ => rfl, rfl, ?_, rfl⟩
    · exact run_script_f_diag api L path interactive optv argv h.diag h.start_loop
    · simp [tarantool_lua_run_script_return]
  · have hs1 : ¬ s1.start_loop = true := by rw [a7]; exact hsl
    have hrun : tarantool_lua_run_script api path interactive optv argv h
        = .returned (tarantool_lua_run_script_return { h with script_fiber := true }
            { s1 with L := api.fiber_sleep s1.L,
                      trace := s1.trace ++ [Event.fiber_sleep] }) := by
      simp only [tarantool_lua_run_script, hL, hf, Step.state, hs1, Bool.false_eq_true, if_false]
    refine ⟨_, hrun, tarantool_lua_run_script_return_status _ _, ?_, ?_, rfl, ?_, rfl⟩
    · simp only [tarantool_lua_run_script_return, a1, a5, first_error_append, a3]
      rfl
    · intro hc
      exact absurd hc hsl
    · simp [tarantool_lua_run_script_return]

/-- The coordinator when an option fails: with `start_loop` set, control stays
in `ev_run`, the error sits in the diagnostics area and the in-flight marker
is still set; with `start_loop` clear the coordinator returns failure. -/
theorem tarantool_lua_run_script_of_done {σ : Type} (api : LuaAPI σ) (path : Option String)
    (interactive : Bool) (optv : List ScriptOption) (argv : List String)
    (h : Host σ) (L : σ) (s2 : Script σ) (hL : h.tarantool_L = some L)
    (hopts : run_options api optv (Script.init L interactive h.diag h.start_loop) = .done s2) :
    (h.start_loop = true →
      tarantool_lua_run_script api path interactive optv argv h
        = .running { h with script_fiber := true, tarantool_L := some s2.L,
                            start_loop := s2.start_loop, diag := s2.diag } s2.trace)
    ∧ (h.start_loop = false →
      tarantool_lua_run_script api path interactive optv argv h
        = .returned (tarantool_lua_run_script_return { h with script_fiber := true } s2))
    ∧ s2.start_loop = h.start_loop
    ∧ ∃ e, s2.diag = some e ∧ first_error s2.trace = some e := by
  have hf : fiber_start api optv (Script.init L interactive h.diag h.start_loop) = .done s2 := by
    simp [fiber_start, run_script_f_start, hopts]
  obtain ⟨pre, o, post, s1, _, e2, e3⟩ := run_options_done api optv _ s2 hopts
  obtain ⟨t1, a1, _, a3, _, _, _, a7⟩ := run_options_next api pre _ s1 e2
  obtain ⟨t2, e, b1, _, b3, _, b5⟩ := run_option_done api o s1 s2 e3
  have hsl : s2.start_loop = h.start_loop := by
    have : s2.start_loop = s1.start_loop := by
      cases o with
      | l name =>
        simp only [run_option] at e3
        split at e3
        · injection e3 with e3
          subst e3
          rfl
        · cases e3
      | e chunk =>
        simp only [run_option] at e3
        split at e3
        · injection e3 with e3
          subst e3
          rfl
        · split at e3
          · injection e3 with e3
            subst e3
            rfl
          · cases e3
    rw [this, a7]
    rfl
  refine ⟨?_, ?_, hsl, e, b5, ?_⟩
  · intro hs
    rw [hs] at hsl
    simp [tarantool_lua_run_script, hL, hf, Step.state, hsl, ev_run]
  · intro hs
    rw [hs] at hsl
    simp [tarantool_lua_run_script, hL, hf, Step.state, hsl]
  · rw [b1, a1]
    simp only [Script.init, List.nil_append, first_error_append, a3, b3]
    rfl

/-- Whenever the coordinator returns: the status against the diagnostics area,
the area against the steps of the task, and the globals. -/
theorem tarantool_lua_run_script_returned {σ : Type} (api : LuaAPI σ) (path : Option String)
    (interactive : Bool) (optv : List ScriptOption) (argv : List String)
    (h : Host σ) (r : RunResult σ)
    (hr : tarantool_lua_run_script api path interactive optv argv h = .returned r) :
    r.status = (if r.host.diag = none then 0 else -1)
    ∧ r.host.diag = (first_error r.trace).or h.diag
    ∧ r.host.script_fiber = false
    ∧ r.host.tarantool_L ≠ none
    ∧ r.host.lua_close_calls = h.lua_close_calls := by
  cases hL : h.tarantool_L with
  | none => simp [tarantool_lua_run_script, hL] at hr
  | some L =>
    cases hopts : run_options api optv (Script.init L interactive h.diag h.start_loop) with
    | next s1 =>
      obtain ⟨r2, c1, c2, c3, _, c5, c6, c7⟩ :=
        tarantool_lua_run_script_of_next api path interactive optv argv h L s1 hL hopts
      rw [hr] at c1
      injection c1 with c1
      subst c1
      exact ⟨c2, c3, c5, c6, c7⟩
    | done s2 =>
      obtain ⟨d1, d2, _, e, d4, d5⟩ :=
        tarantool_lua_run_script_of_done api path interactive optv argv h L s2 hL hopts
      cases hsl : h.start_loop with
      | true =>
        rw [d1 hsl] at hr
        cases hr
      | false =>
        rw [d2 hsl] at hr
        injection hr with hr
        subst hr
        refine ⟨tarantool_lua_run_script_return_status _ _, ?_, rfl,
          by simp [tarantool_lua_run_script_return], rfl⟩
        simp only [tarantool_lua_run_script_return, d4, d5]
        rfl

/-- C3, the failing input: the option `-e fail()`, whose chunk raises, on the
initialised demo host.  The task records the error and calls `ev_break` while
`fiber_start` is still running; the coordinator then enters `ev_run` and no
status is ever reported. -/
theorem C3_option_failure_never_reported :
    tarantool_lua_run_script demo none false [.e "fail()"] ["tarantool"] demo_host
      = .running
          { demo_host with script_fiber := true,
                           diag := some "attempt to call global 'fail'" }
          [Event.loadbuffer "fail()" none,
           Event.call_chunk "fail()" (some "attempt to call global 'fail'"),
           Event.ev_break] := by
  rfl

/-- Whenever the coordinator returns, the status it returns is success (0) if
and only if the diagnostics area is empty at that point, and failure (-1)
otherwise; and it does return whenever the host is initialised and the
options are replayed without failure. -/
theorem tarantool_lua_run_script_status {σ : Type} (api : LuaAPI σ) (path : Option String)
    (interactive : Bool) (optv : List ScriptOption) (argv : List String) (h : Host σ) :
    (∀ r, tarantool_lua_run_script api path interactive optv argv h = .returned r →
        (r.status = 0 ↔ r.host.diag = none) ∧ (r.host.diag ≠ none → r.status = -1))
    ∧ (∀ L s1, h.tarantool_L = some L →
        run_options api optv (Script.init L interactive h.diag h.start_loop) = .next s1 →
        ∃ r, tarantool_lua_run_script api path interactive optv argv h = .returned r) := by
  constructor
  · intro r hr
    obtain ⟨h2, _⟩ := tarantool_lua_run_script_returned api path interactive optv argv h r hr
    constructor
    · rw [h2]
      by_cases hc : r.host.diag = none <;> simp [hc]
    · intro hc
      rw [h2]
      simp [hc]
  · intro L s1 hL hopts
    obtain ⟨r, hr, _⟩ :=
      tarantool_lua_run_script_of_next api path interactive optv argv h L s1 hL hopts
    exact ⟨r, hr⟩

/-- C4, the failing input: the option `-l missing`, whose `require` fails,
with the target `/tmp/s.lua`, on the initialised demo host.  The task has run
to its end (its last event is `ev_break`) and the diagnostics area is not
empty, yet the outcome is not a return: control stays in `ev_run`, with the
in-flight marker still set, and no status, failure or other, is returned. -/
theorem C4_failed_require_never_reported :
    tarantool_lua_run_script demo (some "/tmp/s.lua") false [.l "missing"] ["tarantool"]
        demo_host
      = .running
          { demo_host with script_fiber := true,
                           diag := some "module 'missing' not found" }
          [Event.require "missing" (some "module 'missing' not found"), Event.ev_break]
    ∧ ∀ r, tarantool_lua_run_script demo (some "/tmp/s.lua") false [.l "missing"]
        ["tarantool"] demo_host ≠ .returned r := by
  have h : tarantool_lua_run_script demo (some "/tmp/s.lua") false [.l "missing"]
      ["tarantool"] demo_host
      = .running
          { demo_host with script_fiber := true,
                           diag := some "module 'missing' not found" }
          [Event.require "missing" (some "module 'missing' not found"), Event.ev_break] := rfl
  refine ⟨h, fun r hr => ?_⟩
  rw [h] at hr
  cases hr

theorem tarantool_lua_free_marked {σ : Type} (h : Host σ) (hm : h.script_fiber = true) :
    (tarantool_lua_free h).lua_close_calls = h.lua_close_calls
    ∧ (tarantool_lua_free h).tarantool_L = h.tarantool_L
    ∧ (tarantool_lua_free h).script_fiber = true := by
  simp [tarantool_lua_free, hm]

theorem tarantool_lua_free_clear {σ : Type} (h : Host σ) (hm : h.script_fiber = false) :
    (tarantool_lua_free h).lua_close_calls
        = h.lua_close_calls + (if h.tarantool_L.isSome then 1 else 0)
    ∧ (tarantool_lua_free h).tarantool_L = none
    ∧ (tarantool_lua_free h).script_fiber = false := by
  simp only [tarantool_lua_free, hm]
  cases h.tarantool_L <;> simp

/-- A sequence of teardown calls releases the interpreter once at most, and
not at all when the handle is already cleared. -/
theorem teardown_calls_bound {σ : Type} (ms : List Bool) (h : Host σ) :
    h.lua_close_calls ≤ (teardown_calls ms h).lua_close_calls
    ∧ (teardown_calls ms h).lua_close_calls
        ≤ h.lua_close_calls + (if h.tarantool_L.isSome then 1 else 0)
    ∧ (h.tarantool_L = none → (teardown_calls ms h).tarantool_L = none) := by
  induction ms generalizing h with
  | nil => simp [teardown_calls]
  | cons m ms ih =>
    simp only [teardown_calls]
    obtain ⟨i1, i2, i3⟩ := ih (tarantool_lua_free { h with script_fiber := m })
    cases m with
    | true =>
      obtain ⟨a1, a2, _⟩ := tarantool_lua_free_marked { h with script_fiber := true } rfl
      rw [a1, a2] at i2
      rw [a1] at i1
      rw [a2] at i3
      exact ⟨i1, i2, i3⟩
    | false =>
      obtain ⟨a1, a2, _⟩ := tarantool_lua_free_clear { h with script_fiber := false } rfl
      rw [a1, a2] at i2
      rw [a1] at i1
      simp only [Option.isSome_none, Bool.false_eq_true, if_false, Nat.add_zero] at i2
      exact ⟨by simp only [] at i1; omega, i2, fun _ => i3 a2⟩

/-- C6: teardown as a step on (`script_fiber`, `tarantool_L`).  While the
in-flight marker is set a teardown call releases nothing and leaves the
handle unchanged.  With the marker cleared and the handle present, a teardown
call releases the interpreter exactly once and clears the handle.  Once the
handle is cleared, any further teardown calls release nothing and leave it
cleared.  Over any sequence of teardown calls, whatever the marker is at each
of them, the interpreter is released at most once.  The coordinator, when it
returns, leaves the marker cleared, the handle present and nothing released;
while control is still inside it the marker is set. -/
theorem C6_teardown_releases_once {σ : Type} (h : Host σ) :
    (h.script_fiber = true →
        (tarantool_lua_free h).lua_close_calls = h.lua_close_calls
        ∧ (tarantool_lua_free h).tarantool_L = h.tarantool_L
        ∧ (tarantool_lua_free h).script_fiber = true)
    ∧ (h.script_fiber = false → h.tarantool_L ≠ none →
        (tarantool_lua_free h).lua_close_calls = h.lua_close_calls + 1
        ∧ (tarantool_lua_free h).tarantool_L = none
        ∧ (tarantool_lua_free h).script_fiber = false)
    ∧ (h.tarantool_L = none → ∀ ms : List Bool,
        (teardown_calls ms h).lua_close_calls = h.lua_close_calls
        ∧ (teardown_calls ms h).tarantool_L = none)
    ∧ (∀ ms : List Bool, (teardown_calls ms h).lua_close_calls ≤ h.lua_close_calls + 1)
    ∧ (∀ (api : LuaAPI σ) (path : Option String) (interactive : Bool)
        (optv : List ScriptOption) (argv : List String),
        (∀ r, tarantool_lua_run_script api path interactive optv argv h = .returned r →
          r.host.script_fiber = false ∧ r.host.tarantool_L ≠ none
          ∧ r.host.lua_close_calls = h.lua_close_calls)
        ∧ (∀ h1 t, tarantool_lua_run_script api path interactive optv argv h = .running h1 t →
          h1.script_fiber = true)) := by
  refine ⟨tarantool_lua_free_marked h, ?_, ?_, ?_, ?_⟩
  · intro hm hL
    obtain ⟨a1, a2, a3⟩ := tarantool_lua_free_clear h hm
    refine ⟨?_, a2, a3⟩
    rw [a1]
    cases hl : h.tarantool_L with
    | none => exact absurd hl hL
    | some x => simp
  · intro hL ms
    obtain ⟨b1, b2, b3⟩ := teardown_calls_bound ms h
    rw [hL] at b2
    simp only [Option.isSome_none, Bool.false_eq_true, if_false, Nat.add_zero] at b2
    exact ⟨by omega, b3 hL⟩
  · intro ms
    obtain ⟨_, b2, _⟩ := teardown_calls_bound ms h
    split at b2 <;> omega
  · intro api path interactive optv argv
    constructor
    · intro r hr
      obtain ⟨_, _, c3, c4, c5⟩ :=
        tarantool_lua_run_script_returned api path interactive optv argv h r hr
      exact ⟨c3, c4, c5⟩
    · intro h1 t hr
      simp only [tarantool_lua_run_script] at hr
      split at hr
      · cases hr
      · split at hr
        · split at hr
          · cases hr
          · injection hr with hr _
            subst hr
            rfl
        · cases hr

/-- C6 witness: on the demo host a teardown during the task releases nothing,
the first teardown after it releases once, and three calls release once. -/
theorem C6_teardown_releases_once_witness :
    ({ demo_host with script_fiber := true } : Host (List String)).script_fiber = true
    ∧ (tarantool_lua_free { demo_host with script_fiber := true }).lua_close_calls = 0
    ∧ demo_host.script_fiber = false ∧ demo_host.tarantool_L ≠ none
    ∧ (tarantool_lua_free demo_host).lua_close_calls = demo_host.lua_close_calls + 1
    ∧ (tarantool_lua_free demo_host).tarantool_L = none
    ∧ (teardown_calls [true, false, false] demo_host).lua_close_calls
        ≤ demo_host.lua_close_calls + 1 :=
  ⟨rfl,
   ((C6_teardown_releases_once { demo_host with script_fiber := true }).1 rfl).1,
   rfl, by decide,
   ((C6_teardown_releases_once demo_host).2.1 rfl (by decide)).1,
   ((C6_teardown_releases_once demo_host).2.1 rfl (by decide)).2.1,
   (C6_teardown_releases_once demo_host).2.2.2.1 [true, false, false]⟩

/-! ## Properties of the module registrar -/

end Tarantool
